import Mathlib

/-!
A shallow embedding of `cross.py`, a single-file orchestrator that builds a
GNU cross-compilation toolchain.  Pure path/argument computations are
translated as Lean functions on `String`; the effectful parts
(`Builder.build_pkg`, `Builder.run_command`, `Builder.compile`) are
translated as functions from an explicit filesystem state (a list of
existing paths) to a trace of effects (`Eff`) plus the updated state.
External child processes (configure / make) are opaque: the paths a child
process creates are supplied by an oracle parameter `execFx`, and a child's
exit code is a parameter of `run_command_result`.

String operations are modelled on `String.toList` where the Python uses
`str.split` / prefix tests, because those list operations are
kernel-computable; concatenation and equality are the ordinary `String`
ones.
-/

namespace Cross

/-- Models `os.path.join a b`: if `b` is absolute, the result is just `b`. -/
def pathJoin (a b : String) : String :=
  if b.toList.headD ' ' = '/' then b else a ++ "/" ++ b

/-- Stand-in for the directory of the script (`_DIR` in `cross.py`);
its concrete value is irrelevant to every property proved below. -/
def _DIR : String := "/cross"

def _INSTALL_DIR : String := pathJoin _DIR "install"

def _INSTALL_BIN : String := pathJoin _INSTALL_DIR "bin"

def _LOG_DIR : String := pathJoin _DIR "logs"

def _SRC_DIR : String := pathJoin _DIR "src"

def _WORK_DIR : String := pathJoin _DIR "work"

/-- `_PKGS[pkg]['src']` from `cross.py`. -/
def pkgSrc (pkg : String) : String := pathJoin _SRC_DIR pkg

/-- `_PKGS[pkg]['work'].format(stage, name)` from `cross.py`:
the work-directory template is `work/<pkg><stage>-<name>`. -/
def pkgWork (pkg stage name : String) : String :=
  pathJoin _WORK_DIR (pkg ++ stage ++ "-" ++ name)

/-- `_PKGS[pkg]['log'].format(stage, verb)` from `cross.py`:
the log-name template is `<pkg><stage>-<verb>.log`. -/
def pkgLogName (pkg stage verb : String) : String :=
  pkg ++ stage ++ "-" ++ verb ++ ".log"

/-- `get_args` from `cross.py` (lines 62-63). -/
def get_args (build host target : String) : List String :=
  ["--build=" ++ build, "--host=" ++ host, "--target=" ++ target]

/-- `get_log_path` from `cross.py` (lines 78-79); `action[0]` becomes `headD`. -/
def get_log_path (stage pkg triple : String) (action : List String) : String :=
  pathJoin (pathJoin _LOG_DIR triple) (pkgLogName pkg stage (action.headD ""))

/-- The text before the first `-` of a triple, i.e. the first component of
`arch.split('-', maxsplit=1)` in `get_arch`. -/
def archOf (t : String) : String :=
  String.mk (t.toList.takeWhile (fun c => c ≠ '-'))

/-- `get_arch` from `cross.py` (lines 82-92).  `arch.split('-', maxsplit=1)`
raises `ValueError` when the string has no `-` (the two-name unpacking
fails); otherwise the part before the first `-` selects the kernel ARCH. -/
def get_arch (arch : String) : Except String String :=
  if '-' ∈ arch.toList then
    let a := archOf arch
    if a = "alpha" then .ok "alpha"
    else if a = "powerpc" then .ok "powerpc"
    else if a = "aarch64" then .ok "arm64"
    else if a = "x86_64" then .ok "x86"
    else .error ("Unknown arch " ++ a)
  else .error "ValueError: not enough values to unpack"

/-- The `Target` enum from `cross.py` (lines 121-125). -/
inductive Target
  | BUILD
  | HOST
  | TARGET
  | CANADIAN
deriving DecidableEq, BEq, Repr

/-- The fields of `Builder` as set up by `Builder.__init__` (lines 130-146). -/
structure Builder where
  build : String
  host : String
  target : String
  dry_run : Bool
  host_dir : String
  target_dir : String
  host_arch : String
  target_arch : String
  make_cmd : List String
  is_canadian : Bool
  is_cross : Bool
  common_args : List String
  gcc_args : List String
  bootstrap_args : List String
deriving Repr

/-- `Builder.__init__` minus the arch validation (see `mkBuilder`): the pure
field computation of lines 130-146 of `cross.py`. -/
def mkB (build host target : String) (dry_run : Bool) (jobs : Nat) : Builder :=
  let common_args := ["--prefix=" ++ _INSTALL_DIR]
  { build := build
    host := host
    target := target
    dry_run := dry_run
    host_dir := pathJoin _INSTALL_DIR host
    target_dir := pathJoin _INSTALL_DIR target
    host_arch := ((get_arch host).toOption).getD ""
    target_arch := ((get_arch target).toOption).getD ""
    make_cmd := ["make", "-j" ++ toString jobs]
    is_canadian := build != host
    is_cross := host != target
    common_args := common_args
    gcc_args := common_args ++ ["--enable-languages=all"]
    bootstrap_args := common_args ++ ["--disable-shared", "--enable-languages=c,c++"] }

/-- `Builder.__init__` (lines 130-146): constructing the builder calls
`get_arch` on the host and the target triples (lines 137-138) and raises
before anything is built when either fails. -/
def mkBuilder (build host target : String) (dry_run : Bool) (jobs : Nat) :
    Except String Builder :=
  match get_arch host with
  | .error e => .error e
  | .ok _ =>
    match get_arch target with
    | .error e => .error e
    | .ok _ => .ok (mkB build host target dry_run jobs)

/-- `Builder.format_args` (lines 148-178).  Returns the name used for
path namespacing, the work directory, and the configure argument triple;
raises `CrossException` for the combinations the code rejects. -/
def Builder.format_args (b : Builder) (stage pkg : String) (tgt : Target)
    (host_only : Bool) : Except String (String × String × List String) :=
  let hostE : Except String String :=
    if host_only then
      match tgt with
      | Target.TARGET => .ok b.target
      | Target.HOST => .ok b.host
      | _ => .error "What are you doing?"
    else .ok b.build
  match hostE with
  | .error e => .error e
  | .ok host =>
    match tgt with
    | Target.HOST =>
      .ok (b.host, pkgWork pkg stage b.host, get_args b.build host b.host)
    | Target.TARGET =>
      .ok (b.target, pkgWork pkg stage b.target, get_args b.build host b.target)
    | Target.CANADIAN =>
      let name := b.host ++ "_" ++ b.target
      .ok (name, pkgWork pkg stage name, get_args b.build b.host b.target)
    | Target.BUILD => .error "You shouldn't be building anything for build."

/-- The observable side effects of the orchestrator. -/
inductive Eff
  | mkdirs (path : String)
  | openLog (path : String)
  | exec (args : List String) (log_path : String) (work_dir : String) (path_env : String)
  | printLine (line : String)
  | writeFile (path : String)
deriving DecidableEq, Repr

def Eff.isExec : Eff → Bool
  | .exec .. => true
  | _ => false

def Eff.isPrint : Eff → Bool
  | .printLine _ => true
  | _ => false

def Eff.cwdOf : Eff → Option String
  | .exec _ _ wd _ => some wd
  | _ => none

def Eff.pathEnvOf : Eff → Option String
  | .exec _ _ _ pe => some pe
  | _ => none

/-- The `PATH` value placed in the child environment by `Builder.build_pkg`
(lines 186-191): the just-installed bin directory is appended after the
existing `PATH` for the glibc package and for the Canadian relation. -/
def child_path_env (origPATH pkg : String) (system : Target) : String :=
  if pkg == "glibc" || system == Target.CANADIAN
  then origPATH ++ ":" ++ _INSTALL_BIN
  else origPATH

/-- The effects of `Builder.run_command` (lines 208-234) when the child
process succeeds: in dry-run mode one line (command plus cwd, with the
script directory stripped) is printed and nothing else happens; otherwise
the log file is opened for writing and the child process is executed. -/
def run_command_effs (dry : Bool) (args : List String)
    (log_path work_dir path_env : String) : List Eff :=
  if dry then
    [Eff.printLine ((" ".intercalate args ++ ", cwd=" ++ work_dir).replace (_DIR ++ "/") "")]
  else
    [Eff.openLog log_path, Eff.exec args log_path work_dir path_env]

/-- The control flow of `Builder.run_command` (lines 208-234) as a function
of the child's exit code: in dry-run mode it returns after printing; a
non-zero exit raises `CrossException` with the command and the working
directory interpolated into the message (line 228). -/
def run_command_result (dry : Bool) (exitCode : Nat) (args : List String)
    (log_path work_dir : String) : Except String Unit :=
  if dry then .ok ()
  else if exitCode ≠ 0 then
    .error ("Command " ++ " ".intercalate args ++ " failed in " ++ work_dir ++ ".")
  else .ok ()

/-- The directory-creation section of `Builder.build_pkg` (lines 193-197):
outside dry-run mode, the per-triple log directory and the work directory
are created when absent. -/
def mkdirEffs (dry : Bool) (logdir work_dir : String) (fs : List String) :
    List Eff × List String :=
  if dry then ([], fs)
  else
    let p1 := if logdir ∈ fs then (([] : List Eff), fs) else ([Eff.mkdirs logdir], logdir :: fs)
    if work_dir ∈ p1.2 then p1 else (p1.1 ++ [Eff.mkdirs work_dir], work_dir :: p1.2)

/-- The configure section of `Builder.build_pkg` (lines 199-204): configure
runs only when the work directory has no `Makefile` yet and the package has
a `configure` script (Linux does not); `execFx` supplies the paths the
child process creates. -/
def configureEffs (dry : Bool) (execFx : List String → String → List String)
    (pkg work_dir : String) (config_args extra_args : List String)
    (stage triple env_path : String) (fs : List String) : List Eff × List String :=
  if pathJoin work_dir "Makefile" ∈ fs then ([], fs)
  else
    let configure_path := pathJoin (pkgSrc pkg) "configure"
    if configure_path ∈ fs then
      let cargs := configure_path :: (config_args ++ extra_args)
      (run_command_effs dry cargs (get_log_path stage pkg triple ["config"]) work_dir env_path,
       (if dry then [] else execFx cargs work_dir) ++ fs)
    else ([], fs)

/-- `Builder.build_pkg` (lines 180-206): computes the child environment,
derives the triple via `format_args` (glibc is the host-only package),
ensures the directories, maybe configures, then runs the make verbs. -/
def Builder.build_pkg (b : Builder) (execFx : List String → String → List String)
    (origPATH : String) (pkg : String) (target : List String) (system : Target)
    (extra_args : List String) (stage : String) (fs : List String) :
    Except String (List Eff × List String) :=
  let host_only := pkg == "glibc"
  let env_path := child_path_env origPATH pkg system
  match b.format_args stage pkg system host_only with
  | .error e => .error e
  | .ok (triple, work_dir, config_args) =>
    let d := mkdirEffs b.dry_run (pathJoin _LOG_DIR triple) work_dir fs
    let c := configureEffs b.dry_run execFx pkg work_dir config_args extra_args
               stage triple env_path d.2
    let margs := b.make_cmd ++ target
    let mkEffs := run_command_effs b.dry_run margs (get_log_path stage pkg triple target)
                    work_dir env_path
    let fs3 := (if b.dry_run then [] else execFx margs work_dir) ++ c.2
    .ok (d.1 ++ c.1 ++ mkEffs, fs3)

/-- `ensure_stubs` (lines 95-100): creates an empty `stubs.h` placeholder
when glibc's cross build did not generate it. -/
def ensure_stubs (directory : String) (fs : List String) : List Eff × List String :=
  let stubs_path := pathJoin (pathJoin (pathJoin directory "include") "gnu") "stubs.h"
  if stubs_path ∈ fs then ([], fs) else ([Eff.writeFile stubs_path], stubs_path :: fs)

/-- `Builder.do_canadian` (lines 236-239): the Canadian pass builds and
installs gcc, and nothing else, for the `(build, host, target)` triple. -/
def Builder.do_canadian (b : Builder) (execFx : List String → String → List String)
    (origPATH : String) (fs : List String) : Except String (List Eff × List String) :=
  let canadian_args := ["--prefix=" ++ pathJoin _INSTALL_DIR b.host_dir]
  match b.build_pkg execFx origPATH "gcc" ["all"] Target.CANADIAN canadian_args "" fs with
  | .error e => .error e
  | .ok (e1, f1) =>
    match b.build_pkg execFx origPATH "gcc" ["install"] Target.CANADIAN canadian_args "" f1 with
    | .error e => .error e
    | .ok (e2, f2) => .ok (e1 ++ e2, f2)

/-- `Builder.do_linux` (lines 241-246): kernel headers have no configure
step; the relation's architecture is substituted into the make variables. -/
def Builder.do_linux (b : Builder) (execFx : List String → String → List String)
    (origPATH : String) (system : Target) (header_dir : String) (fs : List String) :
    Except String (List Eff × List String) :=
  let arch := if system = Target.HOST then b.host_arch else b.target_arch
  b.build_pkg execFx origPATH "linux"
    ["headers_install", "ARCH=" ++ arch, "-C", pkgSrc "linux", "O=`pwd`",
     "INSTALL_HDR_PATH=" ++ header_dir]
    system [] "" fs

/-- `Builder.do_glibc_headers` (lines 248-250). -/
def Builder.do_glibc_headers (b : Builder) (execFx : List String → String → List String)
    (origPATH : String) (system : Target) (header_dir : String) (fs : List String) :
    Except String (List Eff × List String) :=
  let glibc_args := ["--prefix=" ++ header_dir]
  b.build_pkg execFx origPATH "glibc" ["install-headers"] system glibc_args "" fs

/-- The relation list built by `Builder.compile` (lines 252-258):
`Target` when `is_cross`, then `Host, Canadian` when `is_canadian`. -/
def Builder.to_build (b : Builder) : List Target :=
  (if b.is_cross then [Target.TARGET] else []) ++
  (if b.is_canadian then [Target.HOST, Target.CANADIAN] else [])

/-- The body of the per-relation loop of `Builder.compile` (lines 263-283)
for a non-Canadian relation: the eight-step bootstrap recipe. -/
def Builder.compileStep (b : Builder) (execFx : List String → String → List String)
    (origPATH : String) (system : Target) (fs : List String) :
    Except String (List Eff × List String) := do
  let (e1, f1) ← b.build_pkg execFx origPATH "binutils" ["all"] system b.common_args "" fs
  let (e2, f2) ← b.build_pkg execFx origPATH "binutils" ["install"] system b.common_args "" f1
  let (e3, f3) ← b.build_pkg execFx origPATH "gcc" ["all-gcc"] system b.bootstrap_args "" f2
  let (e4, f4) ← b.build_pkg execFx origPATH "gcc" ["install-gcc"] system b.bootstrap_args "" f3
  let hdr := if system = Target.TARGET then b.target_dir else b.host_dir
  let (e5, f5) ← b.do_linux execFx origPATH system hdr f4
  let (e6, f6) ← b.do_glibc_headers execFx origPATH system hdr f5
  let s7 := if b.dry_run then (([] : List Eff), f6) else ensure_stubs hdr f6
  let (e8, f8) ← b.build_pkg execFx origPATH "gcc" ["all-target-libgcc"] system b.bootstrap_args "" s7.2
  let (e9, f9) ← b.build_pkg execFx origPATH "gcc" ["install-target-libgcc"] system b.bootstrap_args "" f8
  let glibc_args := ["--prefix=" ++ hdr]
  let (e10, f10) ← b.build_pkg execFx origPATH "glibc" ["all"] system glibc_args "" f9
  let (e11, f11) ← b.build_pkg execFx origPATH "glibc" ["install"] system glibc_args "" f10
  let (e12, f12) ← b.build_pkg execFx origPATH "gcc" ["all"] system b.gcc_args "2" f11
  let (e13, f13) ← b.build_pkg execFx origPATH "gcc" ["install"] system b.gcc_args "2" f12
  return (e1 ++ e2 ++ e3 ++ e4 ++ e5 ++ e6 ++ s7.1 ++ e8 ++ e9 ++ e10 ++ e11 ++ e12 ++ e13, f13)

/-- The per-relation loop of `Builder.compile` (lines 259-283): a Canadian
relation short-circuits to `do_canadian` and ends the run (the Python
`return` on line 262). -/
def Builder.compileGo (b : Builder) (execFx : List String → String → List String)
    (origPATH : String) : List Target → List String → Except String (List Eff × List String)
  | [], fs => .ok ([], fs)
  | system :: rest, fs =>
    if system = Target.CANADIAN then b.do_canadian execFx origPATH fs
    else do
      let (e1, f1) ← b.compileStep execFx origPATH system fs
      let (e2, f2) ← b.compileGo execFx origPATH rest f1
      return (e1 ++ e2, f2)

/-- `Builder.compile` (lines 252-283). -/
def Builder.compile (b : Builder) (execFx : List String → String → List String)
    (origPATH : String) (fs : List String) : Except String (List Eff × List String) :=
  b.compileGo execFx origPATH b.to_build fs

/-- `main` (lines 286-299) restricted to the in-scope core: construct the
builder (arch validation included) and run `compile`. -/
def runMain (build host target : String) (dry : Bool) (jobs : Nat)
    (execFx : List String → String → List String) (origPATH : String)
    (fs : List String) : Except String (List Eff × List String) :=
  match mkBuilder build host target dry jobs with
  | .error e => .error e
  | .ok b => b.compile execFx origPATH fs

/-- The effect trace of a run, empty on error. -/
def effsOf (r : Except String (List Eff × List String)) : List Eff :=
  match r with
  | .ok (es, _) => es
  | .error _ => []

def execCount (r : Except String (List Eff × List String)) : Nat :=
  ((effsOf r).filter Eff.isExec).length

def printCount (r : Except String (List Eff × List String)) : Nat :=
  ((effsOf r).filter Eff.isPrint).length

/-- The architecture names `get_arch` accepts. -/
def archSet : List String := ["alpha", "powerpc", "aarch64", "x86_64"]

/-- A concrete starting filesystem for witnesses: the three autoconf
packages have configure scripts and the kernel tree does not. -/
def fs0 : List String :=
  [pathJoin (pkgSrc "binutils") "configure",
   pathJoin (pkgSrc "gcc") "configure",
   pathJoin (pkgSrc "glibc") "configure"]

/-- A concrete child-process oracle for witnesses: running a configure
script generates a `Makefile` in the work directory (the behaviour the
idempotency check of `build_pkg` line 199 relies on); make creates
nothing the orchestrator later tests for. -/
def fxMk : List String → String → List String := fun args cwd =>
  if args.headD "" ∈ fs0 then [pathJoin cwd "Makefile"] else []

end Cross

namespace Cross

lemma get_arch_ok_iff (t : String) :
    (get_arch t).isOk = true ↔ ('-' ∈ t.toList ∧ archOf t ∈ archSet) := by
  unfold get_arch
  by_cases hd : '-' ∈ t.toList
  · rw [if_pos hd]
    simp only [hd, archSet, List.mem_cons, List.not_mem_nil, or_false, true_and]
    split_ifs with h1 h2 h3 h4 <;> simp_all [Except.isOk, Except.toBool]
  · rw [if_neg hd]
    constructor
    · intro h
      simp [Except.isOk, Except.toBool] at h
    · intro h
      exact absurd h.1 hd

lemma get_arch_of_dash (t : String) (hd : '-' ∈ t.toList) :
    get_arch t =
      (if archOf t = "alpha" then .ok "alpha"
       else if archOf t = "powerpc" then .ok "powerpc"
       else if archOf t = "aarch64" then .ok "arm64"
       else if archOf t = "x86_64" then .ok "x86"
       else .error ("Unknown arch " ++ archOf t)) := by
  unfold get_arch
  rw [if_pos hd]

lemma run_command_effs_shape (dry : Bool) (args : List String) (lp wd pe : String) :
    ∀ e ∈ run_command_effs dry args lp wd pe,
      (∀ x, e.cwdOf = some x → x = wd) ∧ (∀ x, e.pathEnvOf = some x → x = pe) := by
  unfold run_command_effs
  split_ifs with h
  · intro e he
    simp only [List.mem_singleton] at he
    subst he
    simp [Eff.cwdOf, Eff.pathEnvOf]
  · intro e he
    simp only [List.mem_cons, List.not_mem_nil, or_false] at he
    rcases he with he | he <;> subst he <;> simp [Eff.cwdOf, Eff.pathEnvOf]

lemma mkdirEffs_shape (dry : Bool) (ld wd : String) (fs : List String) :
    ∀ e ∈ (mkdirEffs dry ld wd fs).1, e = Eff.mkdirs ld ∨ e = Eff.mkdirs wd := by
  intro e he
  unfold mkdirEffs at he
  by_cases h1 : dry = true
  · simp [h1] at he
  · by_cases h2 : ld ∈ fs
    · by_cases h3 : wd ∈ fs <;> simp_all
    · by_cases h3 : wd ∈ ld :: fs <;> simp_all

lemma mkdirEffs_mono (dry : Bool) (ld wd x : String) (fs : List String) (hx : x ∈ fs) :
    x ∈ (mkdirEffs dry ld wd fs).2 := by
  unfold mkdirEffs
  split_ifs <;> (try simp_all) <;> split_ifs <;> simp_all

lemma configureEffs_cases (dry : Bool) (fx : List String → String → List String)
    (pkg wd : String) (ca ea : List String) (st tr ep : String) (fs : List String) :
    (configureEffs dry fx pkg wd ca ea st tr ep fs).1 = [] ∨
    (configureEffs dry fx pkg wd ca ea st tr ep fs).1 =
      run_command_effs dry (pathJoin (pkgSrc pkg) "configure" :: (ca ++ ea))
        (get_log_path st pkg tr ["config"]) wd ep := by
  unfold configureEffs
  by_cases hA : pathJoin wd "Makefile" ∈ fs
  · simp [hA]
  · by_cases hB : pathJoin (pkgSrc pkg) "configure" ∈ fs
    · simp [hA, hB]
    · simp [hA, hB]

lemma configureEffs_mono (dry : Bool) (fx : List String → String → List String)
    (pkg wd : String) (ca ea : List String) (st tr ep : String) (fs : List String)
    (x : String) (hx : x ∈ fs) :
    x ∈ (configureEffs dry fx pkg wd ca ea st tr ep fs).2 := by
  unfold configureEffs
  by_cases hA : pathJoin wd "Makefile" ∈ fs
  · simp [hA, hx]
  · by_cases hB : pathJoin (pkgSrc pkg) "configure" ∈ fs
    · simp [hA, hB, hx]
    · simp [hA, hB, hx]

lemma configureEffs_skip (dry : Bool) (fx : List String → String → List String)
    (pkg wd : String) (ca ea : List String) (st tr ep : String) (fs : List String)
    (h : pathJoin wd "Makefile" ∈ fs) :
    configureEffs dry fx pkg wd ca ea st tr ep fs = ([], fs) := by
  unfold configureEffs
  rw [if_pos h]

lemma build_pkg_ok (b : Builder) (fx : List String → String → List String)
    (p pkg : String) (verbs : List String) (system : Target) (extras : List String)
    (stage : String) (fs : List String) (triple wd : String) (ca : List String)
    (hfa : b.format_args stage pkg system (pkg == "glibc") = .ok (triple, wd, ca)) :
    b.build_pkg fx p pkg verbs system extras stage fs =
      .ok ((mkdirEffs b.dry_run (pathJoin _LOG_DIR triple) wd fs).1 ++
             (configureEffs b.dry_run fx pkg wd ca extras stage triple
               (child_path_env p pkg system)
               (mkdirEffs b.dry_run (pathJoin _LOG_DIR triple) wd fs).2).1 ++
             run_command_effs b.dry_run (b.make_cmd ++ verbs)
               (get_log_path stage pkg triple verbs) wd (child_path_env p pkg system),
           (if b.dry_run then [] else fx (b.make_cmd ++ verbs) wd) ++
             (configureEffs b.dry_run fx pkg wd ca extras stage triple
               (child_path_env p pkg system)
               (mkdirEffs b.dry_run (pathJoin _LOG_DIR triple) wd fs).2).2) := by
  unfold Builder.build_pkg
  simp only [hfa]

lemma build_pkg_cwd (b : Builder) (fx : List String → String → List String)
    (p pkg : String) (verbs : List String) (system : Target) (extras : List String)
    (stage : String) (fs : List String) (triple wd : String) (ca : List String)
    (effs : List Eff) (fs2 : List String)
    (hfa : b.format_args stage pkg system (pkg == "glibc") = .ok (triple, wd, ca))
    (hbp : b.build_pkg fx p pkg verbs system extras stage fs = .ok (effs, fs2)) :
    ∀ e ∈ effs, ∀ x, e.cwdOf = some x → x = wd := by
  rw [build_pkg_ok b fx p pkg verbs system extras stage fs triple wd ca hfa] at hbp
  simp only [Except.ok.injEq, Prod.mk.injEq] at hbp
  obtain ⟨he, -⟩ := hbp
  subst he
  intro e he2 x hx
  rcases List.mem_append.mp he2 with he2 | he2
  · rcases List.mem_append.mp he2 with he2 | he2
    · rcases mkdirEffs_shape _ _ _ _ e he2 with rfl | rfl <;> simp [Eff.cwdOf] at hx
    · rcases configureEffs_cases b.dry_run fx pkg wd ca extras stage triple
          (child_path_env p pkg system) _ with hc | hc
      · rw [hc] at he2
        exact absurd he2 (List.not_mem_nil e)
      · rw [hc] at he2
        exact (run_command_effs_shape _ _ _ _ _ e he2).1 x hx
  · exact (run_command_effs_shape _ _ _ _ _ e he2).1 x hx

lemma build_pkg_pathEnv (b : Builder) (fx : List String → String → List String)
    (p pkg : String) (verbs : List String) (system : Target) (extras : List String)
    (stage : String) (fs : List String) (triple wd : String) (ca : List String)
    (effs : List Eff) (fs2 : List String)
    (hfa : b.format_args stage pkg system (pkg == "glibc") = .ok (triple, wd, ca))
    (hbp : b.build_pkg fx p pkg verbs system extras stage fs = .ok (effs, fs2)) :
    ∀ e ∈ effs, ∀ x, e.pathEnvOf = some x → x = child_path_env p pkg system := by
  rw [build_pkg_ok b fx p pkg verbs system extras stage fs triple wd ca hfa] at hbp
  simp only [Except.ok.injEq, Prod.mk.injEq] at hbp
  obtain ⟨he, -⟩ := hbp
  subst he
  intro e he2 x hx
  rcases List.mem_append.mp he2 with he2 | he2
  · rcases List.mem_append.mp he2 with he2 | he2
    · rcases mkdirEffs_shape _ _ _ _ e he2 with rfl | rfl <;> simp [Eff.pathEnvOf] at hx
    · rcases configureEffs_cases b.dry_run fx pkg wd ca extras stage triple
          (child_path_env p pkg system) _ with hc | hc
      · rw [hc] at he2
        exact absurd he2 (List.not_mem_nil e)
      · rw [hc] at he2
        exact (run_command_effs_shape _ _ _ _ _ e he2).2 x hx
  · exact (run_command_effs_shape _ _ _ _ _ e he2).2 x hx

lemma ebind_ok {α β : Type} (a : α) (f : α → Except String β) :
    (Except.ok a >>= f) = f a := rfl

lemma run_command_effs_dry (args : List String) (lp wd pe : String) :
    ∀ e ∈ run_command_effs true args lp wd pe, e.isPrint = true := by
  intro e he
  simp only [run_command_effs, if_true] at he
  simp_all [Eff.isPrint]

lemma configureEffs_dry_snd (fx : List String → String → List String)
    (pkg wd : String) (ca ea : List String) (st tr ep : String) (fs : List String) :
    (configureEffs true fx pkg wd ca ea st tr ep fs).2 = fs := by
  unfold configureEffs
  by_cases hA : pathJoin wd "Makefile" ∈ fs
  · simp [hA]
  · by_cases hB : pathJoin (pkgSrc pkg) "configure" ∈ fs <;> simp [hA, hB]

lemma configureEffs_dry_fst (fx : List String → String → List String)
    (pkg wd : String) (ca ea : List String) (st tr ep : String) (fs : List String) :
    ∀ e ∈ (configureEffs true fx pkg wd ca ea st tr ep fs).1, e.isPrint = true := by
  intro e he
  rcases configureEffs_cases true fx pkg wd ca ea st tr ep fs with hc | hc
  · rw [hc] at he
    exact absurd he (List.not_mem_nil e)
  · rw [hc] at he
    exact run_command_effs_dry _ _ _ _ e he

lemma build_pkg_dry (b : Builder) (fx : List String → String → List String)
    (p pkg : String) (verbs : List String) (system : Target) (extras : List String)
    (stage : String) (fs : List String) (triple wd : String) (ca : List String)
    (hdry : b.dry_run = true)
    (hfa : b.format_args stage pkg system (pkg == "glibc") = .ok (triple, wd, ca)) :
    b.build_pkg fx p pkg verbs system extras stage fs =
      .ok ((configureEffs true fx pkg wd ca extras stage triple
              (child_path_env p pkg system) fs).1 ++
             run_command_effs true (b.make_cmd ++ verbs) (get_log_path stage pkg triple verbs)
               wd (child_path_env p pkg system),
           fs) := by
  rw [build_pkg_ok b fx p pkg verbs system extras stage fs triple wd ca hfa, hdry]
  have h2 := configureEffs_dry_snd fx pkg wd ca extras stage triple
      (child_path_env p pkg system) fs
  simp [mkdirEffs, h2]

lemma build_pkg_dry_all (b : Builder) (fx : List String → String → List String)
    (p pkg : String) (verbs : List String) (system : Target) (extras : List String)
    (stage : String) (fs : List String) (triple wd : String) (ca : List String)
    (hdry : b.dry_run = true)
    (hfa : b.format_args stage pkg system (pkg == "glibc") = .ok (triple, wd, ca)) :
    ∃ effs, b.build_pkg fx p pkg verbs system extras stage fs = .ok (effs, fs) ∧
      ∀ e ∈ effs, e.isPrint = true := by
  refine ⟨_, build_pkg_dry b fx p pkg verbs system extras stage fs triple wd ca hdry hfa, ?_⟩
  intro e he
  rcases List.mem_append.mp he with he | he
  · exact configureEffs_dry_fst _ _ _ _ _ _ _ _ _ e he
  · exact run_command_effs_dry _ _ _ _ e he

lemma do_linux_dry (b : Builder) (fx : List String → String → List String)
    (p : String) (system : Target) (hdr : String) (fs : List String)
    (hdry : b.dry_run = true)
    (hsys : system = Target.HOST ∨ system = Target.TARGET) :
    ∃ effs, b.do_linux fx p system hdr fs = .ok (effs, fs) ∧
      ∀ e ∈ effs, e.isPrint = true := by
  rcases hsys with rfl | rfl
  · exact build_pkg_dry_all b fx p "linux"
      ["headers_install", "ARCH=" ++ b.host_arch, "-C", pkgSrc "linux", "O=`pwd`",
       "INSTALL_HDR_PATH=" ++ hdr] Target.HOST [] "" fs _ _ _ hdry rfl
  · exact build_pkg_dry_all b fx p "linux"
      ["headers_install", "ARCH=" ++ b.target_arch, "-C", pkgSrc "linux", "O=`pwd`",
       "INSTALL_HDR_PATH=" ++ hdr] Target.TARGET [] "" fs _ _ _ hdry rfl

lemma do_glibc_headers_dry (b : Builder) (fx : List String → String → List String)
    (p : String) (system : Target) (hdr : String) (fs : List String)
    (hdry : b.dry_run = true)
    (hsys : system = Target.HOST ∨ system = Target.TARGET) :
    ∃ effs, b.do_glibc_headers fx p system hdr fs = .ok (effs, fs) ∧
      ∀ e ∈ effs, e.isPrint = true := by
  rcases hsys with rfl | rfl
  · exact build_pkg_dry_all b fx p "glibc" ["install-headers"] Target.HOST
      ["--prefix=" ++ hdr] "" fs _ _ _ hdry rfl
  · exact build_pkg_dry_all b fx p "glibc" ["install-headers"] Target.TARGET
      ["--prefix=" ++ hdr] "" fs _ _ _ hdry rfl

lemma do_canadian_dry (b : Builder) (fx : List String → String → List String)
    (p : String) (fs : List String) (hdry : b.dry_run = true) :
    ∃ effs, b.do_canadian fx p fs = .ok (effs, fs) ∧ ∀ e ∈ effs, e.isPrint = true := by
  unfold Builder.do_canadian
  dsimp only []
  obtain ⟨e1, h1, hp1⟩ := build_pkg_dry_all b fx p "gcc" ["all"] Target.CANADIAN
      ["--prefix=" ++ pathJoin _INSTALL_DIR b.host_dir] "" fs _ _ _ hdry rfl
  obtain ⟨e2, h2, hp2⟩ := build_pkg_dry_all b fx p "gcc" ["install"] Target.CANADIAN
      ["--prefix=" ++ pathJoin _INSTALL_DIR b.host_dir] "" fs _ _ _ hdry rfl
  rw [h1]
  dsimp only []
  rw [h2]
  refine ⟨e1 ++ e2, rfl, ?_⟩
  intro e he
  rcases List.mem_append.mp he with he | he
  · exact hp1 e he
  · exact hp2 e he

lemma dry_step (x : Except String (List Eff × List String))
    (f : List Eff × List String → Except String (List Eff × List String))
    (exs : List Eff) (fs : List String) (hx : x = .ok (exs, fs))
    (hrest : ∃ e2, f (exs, fs) = .ok (e2, fs) ∧ ∀ e ∈ e2, e.isPrint = true) :
    ∃ e2, (x >>= f) = .ok (e2, fs) ∧ ∀ e ∈ e2, e.isPrint = true := by
  subst hx
  obtain ⟨e2, h2, hp⟩ := hrest
  exact ⟨e2, h2, hp⟩

lemma compileStep_dry (b : Builder) (fx : List String → String → List String)
    (p : String) (system : Target) (fs : List String)
    (hdry : b.dry_run = true)
    (hsys : system = Target.HOST ∨ system = Target.TARGET) :
    ∃ effs, b.compileStep fx p system fs = .ok (effs, fs) ∧
      ∀ e ∈ effs, e.isPrint = true := by
  rcases hsys with rfl | rfl
  · obtain ⟨e1, h1, hp1⟩ := build_pkg_dry_all b fx p "binutils" ["all"] Target.HOST
        b.common_args "" fs _ _ _ hdry rfl
    obtain ⟨e2, h2, hp2⟩ := build_pkg_dry_all b fx p "binutils" ["install"] Target.HOST
        b.common_args "" fs _ _ _ hdry rfl
    obtain ⟨e3, h3, hp3⟩ := build_pkg_dry_all b fx p "gcc" ["all-gcc"] Target.HOST
        b.bootstrap_args "" fs _ _ _ hdry rfl
    obtain ⟨e4, h4, hp4⟩ := build_pkg_dry_all b fx p "gcc" ["install-gcc"] Target.HOST
        b.bootstrap_args "" fs _ _ _ hdry rfl
    obtain ⟨e5, h5, hp5⟩ := do_linux_dry b fx p Target.HOST b.host_dir fs hdry (Or.inl rfl)
    obtain ⟨e6, h6, hp6⟩ := do_glibc_headers_dry b fx p Target.HOST b.host_dir fs hdry (Or.inl rfl)
    obtain ⟨e8, h8, hp8⟩ := build_pkg_dry_all b fx p "gcc" ["all-target-libgcc"] Target.HOST
        b.bootstrap_args "" fs _ _ _ hdry rfl
    obtain ⟨e9, h9, hp9⟩ := build_pkg_dry_all b fx p "gcc" ["install-target-libgcc"] Target.HOST
        b.bootstrap_args "" fs _ _ _ hdry rfl
    obtain ⟨e10, h10, hp10⟩ := build_pkg_dry_all b fx p "glibc" ["all"] Target.HOST
        ["--prefix=" ++ b.host_dir] "" fs _ _ _ hdry rfl
    obtain ⟨e11, h11, hp11⟩ := build_pkg_dry_all b fx p "glibc" ["install"] Target.HOST
        ["--prefix=" ++ b.host_dir] "" fs _ _ _ hdry rfl
    obtain ⟨e12, h12, hp12⟩ := build_pkg_dry_all b fx p "gcc" ["all"] Target.HOST
        b.gcc_args "2" fs _ _ _ hdry rfl
    obtain ⟨e13, h13, hp13⟩ := build_pkg_dry_all b fx p "gcc" ["install"] Target.HOST
        b.gcc_args "2" fs _ _ _ hdry rfl
    unfold Builder.compileStep
    rw [hdry]
    refine dry_step _ _ _ _ h1 ?_
    refine dry_step _ _ _ _ h2 ?_
    refine dry_step _ _ _ _ h3 ?_
    refine dry_step _ _ _ _ h4 ?_
    refine dry_step _ _ _ _ h5 ?_
    refine dry_step _ _ _ _ h6 ?_
    refine dry_step _ _ _ _ h8 ?_
    refine dry_step _ _ _ _ h9 ?_
    refine dry_step _ _ _ _ h10 ?_
    refine dry_step _ _ _ _ h11 ?_
    refine dry_step _ _ _ _ h12 ?_
    refine dry_step _ _ _ _ h13 ?_
    refine ⟨_, rfl, ?_⟩
    intro e he
    simp only [List.mem_append] at he
    casesm* _ ∨ _
    all_goals first
      | exact hp1 e (by assumption)
      | exact hp2 e (by assumption)
      | exact hp3 e (by assumption)
      | exact hp4 e (by assumption)
      | exact hp5 e (by assumption)
      | exact hp6 e (by assumption)
      | exact hp8 e (by assumption)
      | exact hp9 e (by assumption)
      | exact hp10 e (by assumption)
      | exact hp11 e (by assumption)
      | exact hp12 e (by assumption)
      | exact hp13 e (by assumption)
      | simp_all
  · obtain ⟨e1, h1, hp1⟩ := build_pkg_dry_all b fx p "binutils" ["all"] Target.TARGET
        b.common_args "" fs _ _ _ hdry rfl
    obtain ⟨e2, h2, hp2⟩ := build_pkg_dry_all b fx p "binutils" ["install"] Target.TARGET
        b.common_args "" fs _ _ _ hdry rfl
    obtain ⟨e3, h3, hp3⟩ := build_pkg_dry_all b fx p "gcc" ["all-gcc"] Target.TARGET
        b.bootstrap_args "" fs _ _ _ hdry rfl
    obtain ⟨e4, h4, hp4⟩ := build_pkg_dry_all b fx p "gcc" ["install-gcc"] Target.TARGET
        b.bootstrap_args "" fs _ _ _ hdry rfl
    obtain ⟨e5, h5, hp5⟩ := do_linux_dry b fx p Target.TARGET b.target_dir fs hdry (Or.inr rfl)
    obtain ⟨e6, h6, hp6⟩ := do_glibc_headers_dry b fx p Target.TARGET b.target_dir fs hdry (Or.inr rfl)
    obtain ⟨e8, h8, hp8⟩ := build_pkg_dry_all b fx p "gcc" ["all-target-libgcc"] Target.TARGET
        b.bootstrap_args "" fs _ _ _ hdry rfl
    obtain ⟨e9, h9, hp9⟩ := build_pkg_dry_all b fx p "gcc" ["install-target-libgcc"] Target.TARGET
        b.bootstrap_args "" fs _ _ _ hdry rfl
    obtain ⟨e10, h10, hp10⟩ := build_pkg_dry_all b fx p "glibc" ["all"] Target.TARGET
        ["--prefix=" ++ b.target_dir] "" fs _ _ _ hdry rfl
    obtain ⟨e11, h11, hp11⟩ := build_pkg_dry_all b fx p "glibc" ["install"] Target.TARGET
        ["--prefix=" ++ b.target_dir] "" fs _ _ _ hdry rfl
    obtain ⟨e12, h12, hp12⟩ := build_pkg_dry_all b fx p "gcc" ["all"] Target.TARGET
        b.gcc_args "2" fs _ _ _ hdry rfl
    obtain ⟨e13, h13, hp13⟩ := build_pkg_dry_all b fx p "gcc" ["install"] Target.TARGET
        b.gcc_args "2" fs _ _ _ hdry rfl
    unfold Builder.compileStep
    rw [hdry]
    refine dry_step _ _ _ _ h1 ?_
    refine dry_step _ _ _ _ h2 ?_
    refine dry_step _ _ _ _ h3 ?_
    refine dry_step _ _ _ _ h4 ?_
    refine dry_step _ _ _ _ h5 ?_
    refine dry_step _ _ _ _ h6 ?_
    refine dry_step _ _ _ _ h8 ?_
    refine dry_step _ _ _ _ h9 ?_
    refine dry_step _ _ _ _ h10 ?_
    refine dry_step _ _ _ _ h11 ?_
    refine dry_step _ _ _ _ h12 ?_
    refine dry_step _ _ _ _ h13 ?_
    refine ⟨_, rfl, ?_⟩
    intro e he
    simp only [List.mem_append] at he
    casesm* _ ∨ _
    all_goals first
      | exact hp1 e (by assumption)
      | exact hp2 e (by assumption)
      | exact hp3 e (by assumption)
      | exact hp4 e (by assumption)
      | exact hp5 e (by assumption)
      | exact hp6 e (by assumption)
      | exact hp8 e (by assumption)
      | exact hp9 e (by assumption)
      | exact hp10 e (by assumption)
      | exact hp11 e (by assumption)
      | exact hp12 e (by assumption)
      | exact hp13 e (by assumption)
      | simp_all

lemma to_build_no_build (b : Builder) : ∀ s ∈ b.to_build, s ≠ Target.BUILD := by
  intro s hs hbuild
  subst hbuild
  unfold Builder.to_build at hs
  rcases List.mem_append.mp hs with h | h <;> split_ifs at h <;> simp_all

lemma compileGo_dry (b : Builder) (fx : List String → String → List String)
    (p : String) (hdry : b.dry_run = true) :
    ∀ ts : List Target, (∀ s ∈ ts, s ≠ Target.BUILD) → ∀ fs,
      ∃ effs, b.compileGo fx p ts fs = .ok (effs, fs) ∧ ∀ e ∈ effs, e.isPrint = true := by
  intro ts
  induction ts with
  | nil =>
    intro _ fs
    exact ⟨[], rfl, by simp⟩
  | cons s rest ih =>
    intro hmem fs
    by_cases hc : s = Target.CANADIAN
    · subst hc
      obtain ⟨effs, h, hp⟩ := do_canadian_dry b fx p fs hdry
      refine ⟨effs, ?_, hp⟩
      simp [Builder.compileGo, h]
    · have hb : s ≠ Target.BUILD := hmem s (List.mem_cons_self s rest)
      have hs : s = Target.HOST ∨ s = Target.TARGET := by
        cases s
        · exact absurd rfl hb
        · exact Or.inl rfl
        · exact Or.inr rfl
        · exact absurd rfl hc
      obtain ⟨e1, h1, hp1⟩ := compileStep_dry b fx p s fs hdry hs
      obtain ⟨e2, h2, hp2⟩ := ih (fun x hx => hmem x (List.mem_cons_of_mem s hx)) fs
      refine ⟨e1 ++ e2, ?_, ?_⟩
      · simp only [Builder.compileGo, if_neg hc]
        rw [h1]
        simp only [ebind_ok]
        rw [h2]
        simp only [ebind_ok]
        rfl
      · intro e he
        rcases List.mem_append.mp he with h | h
        · exact hp1 e h
        · exact hp2 e h

/-- C1: for a canonicalized (build, host, target), the orchestrator's
relation list is `[Target]` when host ≠ target and build = host,
`[Host, Canadian]` when build ≠ host and host = target, and
`[Target, Host, Canadian]` when build ≠ host and host ≠ target; membership
is decided solely by `is_cross = (host != target)` and
`is_canadian = (build != host)`. -/
theorem C1_relation_list (build host target : String) (d : Bool) (j : Nat) :
    ((mkB build host target d j).is_cross = (host != target)) ∧
    ((mkB build host target d j).is_canadian = (build != host)) ∧
    (host ≠ target → build = host →
      (mkB build host target d j).to_build = [Target.TARGET]) ∧
    (build ≠ host → host = target →
      (mkB build host target d j).to_build = [Target.HOST, Target.CANADIAN]) ∧
    (build ≠ host → host ≠ target →
      (mkB build host target d j).to_build = [Target.TARGET, Target.HOST, Target.CANADIAN]) := by
  refine ⟨rfl, rfl, ?_, ?_, ?_⟩
  · intro h1 h2
    subst h2
    simp [Builder.to_build, mkB, bne_iff_ne, h1]
  · intro h1 h2
    subst h2
    simp [Builder.to_build, mkB, bne_iff_ne, h1]
  · intro h1 h2
    simp [Builder.to_build, mkB, bne_iff_ne, h1, h2]

/-- Witness for C1 at a concrete triple with host ≠ target, build = host. -/
theorem C1_relation_list_witness :
    ("h-x" : String) ≠ "t-x" ∧
    (mkB "h-x" "h-x" "t-x" false 1).to_build = [Target.TARGET] :=
  ⟨by decide, (C1_relation_list "h-x" "h-x" "t-x" false 1).2.2.1 (by decide) rfl⟩

/-- C2: the derived configure argument triples.  Not host-only:
Host → (build, build, host), Target → (build, build, target),
Canadian → (build, host, target).  Host-only: the host slot is the run's
target triple under Target and the run's host triple under Host. -/
theorem C2_derive_args (b : Builder) (stage pkg : String) :
    b.format_args stage pkg Target.HOST false =
      .ok (b.host, pkgWork pkg stage b.host, get_args b.build b.build b.host) ∧
    b.format_args stage pkg Target.TARGET false =
      .ok (b.target, pkgWork pkg stage b.target, get_args b.build b.build b.target) ∧
    b.format_args stage pkg Target.CANADIAN false =
      .ok (b.host ++ "_" ++ b.target, pkgWork pkg stage (b.host ++ "_" ++ b.target),
           get_args b.build b.host b.target) ∧
    b.format_args stage pkg Target.TARGET true =
      .ok (b.target, pkgWork pkg stage b.target, get_args b.build b.target b.target) ∧
    b.format_args stage pkg Target.HOST true =
      .ok (b.host, pkgWork pkg stage b.host, get_args b.build b.host b.host) :=
  ⟨rfl, rfl, rfl, rfl, rfl⟩

/-- Counterexample to C4 as stated: with build ≠ host and host = target the
relation list is `[Host, Canadian]`, not empty. -/
theorem C4_counterexample :
    ¬ (∀ (build host target : String) (d : Bool) (j : Nat),
        host = target → (mkB build host target d j).to_build = []) := by
  intro h
  exact absurd (h "b-1" "h-1" "h-1" false 1 rfl) (by decide)

/-- C4 amended: the relation list is empty when host = target and
additionally build = host (no cross, no Canadian). -/
theorem C4_no_relations (build host target : String) (d : Bool) (j : Nat)
    (h1 : host = target) (h2 : build = host) :
    (mkB build host target d j).to_build = [] := by
  simp [Builder.to_build, mkB, bne_iff_ne, h1, h2]

/-- Witness for the amended C4 at a fully-native triple. -/
theorem C4_no_relations_witness :
    (mkB "b-1" "b-1" "b-1" true 1).to_build = [] :=
  C4_no_relations "b-1" "b-1" "b-1" true 1 rfl rfl

/-- C8: deriving configure arguments for the host-only package under the
Canadian relation raises `CrossException` (the spec's ConfigurationError),
and among {Host, Target, Canadian} × {host-only, not} this is the only
failing combination. -/
theorem C8_canadian_host_only_fails (b : Builder) (stage pkg : String) :
    b.format_args stage pkg Target.CANADIAN true = .error "What are you doing?" ∧
    (b.format_args stage pkg Target.HOST true).isOk = true ∧
    (b.format_args stage pkg Target.TARGET true).isOk = true ∧
    (b.format_args stage pkg Target.HOST false).isOk = true ∧
    (b.format_args stage pkg Target.TARGET false).isOk = true ∧
    (b.format_args stage pkg Target.CANADIAN false).isOk = true :=
  ⟨rfl, rfl, rfl, rfl, rfl, rfl⟩

/-- C10: builder construction succeeds iff both host and target have a
`-` and an architecture component among {alpha, powerpc, aarch64, x86_64};
on failure the whole run fails before any relation is built; and the
kernel ARCH value is arm64 for aarch64, x86 for x86_64, and the
architecture name itself for alpha and powerpc. -/
theorem C10_arch_validation (build host target : String) (d : Bool) (j : Nat) :
    ((mkBuilder build host target d j).isOk = true ↔
      (('-' ∈ host.toList ∧ archOf host ∈ archSet) ∧
       ('-' ∈ target.toList ∧ archOf target ∈ archSet))) ∧
    (∀ e, mkBuilder build host target d j = .error e →
      ∀ fx p fs, runMain build host target d j fx p fs = .error e) ∧
    (∀ t, '-' ∈ t.toList → archOf t = "aarch64" → get_arch t = .ok "arm64") ∧
    (∀ t, '-' ∈ t.toList → archOf t = "x86_64" → get_arch t = .ok "x86") ∧
    (∀ t, '-' ∈ t.toList → archOf t = "alpha" → get_arch t = .ok "alpha") ∧
    (∀ t, '-' ∈ t.toList → archOf t = "powerpc" → get_arch t = .ok "powerpc") := by
  refine ⟨?_, ?_, ?_, ?_, ?_, ?_⟩
  · rw [← get_arch_ok_iff host, ← get_arch_ok_iff target]
    unfold mkBuilder
    rcases hh : get_arch host with eh | ah <;>
      rcases ht : get_arch target with et | at2 <;>
        simp [Except.isOk, Except.toBool]
  · intro e he fx p fs
    unfold runMain
    rw [he]
  · intro t hd ha
    rw [get_arch_of_dash t hd, ha]
    rfl
  · intro t hd ha
    rw [get_arch_of_dash t hd, ha]
    rfl
  · intro t hd ha
    rw [get_arch_of_dash t hd, ha]
    rfl
  · intro t hd ha
    rw [get_arch_of_dash t hd, ha]
    rfl

/-- Witness for C10: a valid pair of triples constructs, and the aarch64
ARCH value is arm64. -/
theorem C10_arch_validation_witness :
    (mkBuilder "b-1" "aarch64-linux" "x86_64-linux" false 1).isOk = true ∧
    get_arch "aarch64-linux" = .ok "arm64" :=
  ⟨(C10_arch_validation "b-1" "aarch64-linux" "x86_64-linux" false 1).1.mpr
      ⟨⟨by decide, by decide⟩, ⟨by decide, by decide⟩⟩,
   (C10_arch_validation "b-1" "aarch64-linux" "x86_64-linux" false 1).2.2.1
      "aarch64-linux" (by decide) (by decide)⟩

/-- Counterexample to C5 as stated: in the glibc build step the install
bin directory is appended after the existing PATH, not prepended before
it; the child PATH of a concrete glibc step is `origPATH:installBin`. -/
theorem C5_counterexample :
    (effsOf ((mkB "x86_64-b" "x86_64-b" "aarch64-t" false 2).build_pkg fxMk "/usr/bin"
        "glibc" ["all"] Target.TARGET [] "" fs0)).filterMap Eff.pathEnvOf =
      ["/usr/bin:" ++ _INSTALL_BIN, "/usr/bin:" ++ _INSTALL_BIN] ∧
    ("/usr/bin:" ++ _INSTALL_BIN) ≠ (_INSTALL_BIN ++ ":" ++ "/usr/bin") := by
  exact ⟨by decide, by decide⟩

/-- Counterexample to C9 as stated: the `BuildFailure` message interpolates
the command and the working directory but not the log path. -/
theorem C9_counterexample :
    run_command_result false 2 ["make"] "/cross/logs/x/gcc-all.log" "/cross/work/gcc-x" =
      .error "Command make failed in /cross/work/gcc-x." ∧
    ¬ List.IsInfix "/cross/logs/x/gcc-all.log".toList
        "Command make failed in /cross/work/gcc-x.".toList :=
  ⟨rfl, by decide⟩

/-- C9 amended: `run_command` raises iff the run is live and the child
exited non-zero, and the message reports the failing command and its
working directory (the log path is not part of the message). -/
theorem C9_failure_report (dry : Bool) (exitCode : Nat) (args : List String)
    (lp wd : String) :
    ((∃ m, run_command_result dry exitCode args lp wd = .error m) ↔
      (dry = false ∧ exitCode ≠ 0)) ∧
    (∀ m, run_command_result dry exitCode args lp wd = .error m →
      List.IsInfix (" ".intercalate args).toList m.toList ∧
      List.IsInfix wd.toList m.toList) := by
  unfold run_command_result
  constructor
  · constructor
    · rintro ⟨m, hm⟩
      split_ifs at hm with h1 h2 <;> simp_all
    · rintro ⟨h1, h2⟩
      subst h1
      simp only [Bool.false_eq_true, if_false, h2, if_true, ne_eq, not_false_iff]
      exact ⟨_, rfl⟩
  · intro m hm
    split_ifs at hm with h1 h2
    all_goals first
      | (injection hm with hm2
         subst hm2
         exact ⟨⟨"Command ".toList, (" failed in " ++ wd ++ ".").toList, by simp⟩,
                ⟨("Command " ++ " ".intercalate args ++ " failed in ").toList, ".".toList, by simp⟩⟩)
      | exact absurd hm (by simp)

/-- Witness for the amended C9 at a concrete failing command. -/
theorem C9_failure_report_witness :
    run_command_result false 2 ["make"] "/lp" "/wd" = .error "Command make failed in /wd." ∧
    List.IsInfix "/wd".toList "Command make failed in /wd.".toList :=
  ⟨rfl, ((C9_failure_report false 2 ["make"] "/lp" "/wd").2
      "Command make failed in /wd." rfl).2⟩

/-- C5 amended: for every package-build step, the child PATH is the
existing PATH with the install bin directory appended after it when the
package is glibc or the relation is Canadian, and the unchanged PATH
otherwise (the code appends rather than prepends, so the claim's
"prepended ... takes precedence" direction is false; see
C5_counterexample). -/
theorem C5_path_env (b : Builder) (fx : List String → String → List String)
    (p pkg : String) (verbs : List String) (system : Target) (extras : List String)
    (stage : String) (fs : List String) (triple wd : String) (ca : List String)
    (effs : List Eff) (fs2 : List String)
    (hfa : b.format_args stage pkg system (pkg == "glibc") = .ok (triple, wd, ca))
    (hbp : b.build_pkg fx p pkg verbs system extras stage fs = .ok (effs, fs2)) :
    ∀ e ∈ effs, ∀ x, e.pathEnvOf = some x →
      x = (if pkg == "glibc" || system == Target.CANADIAN
           then p ++ ":" ++ _INSTALL_BIN else p) :=
  build_pkg_pathEnv b fx p pkg verbs system extras stage fs triple wd ca effs fs2 hfa hbp

/-- Witness for the amended C5: the concrete glibc step's child PATH. -/
theorem C5_path_env_witness :
    ∃ effs fs2,
      (mkB "x86_64-b" "x86_64-b" "aarch64-t" false 2).build_pkg fxMk "/usr/bin" "glibc"
        ["all"] Target.TARGET [] "" fs0 = .ok (effs, fs2) ∧
      ∀ e ∈ effs, ∀ x, e.pathEnvOf = some x → x = "/usr/bin" ++ ":" ++ _INSTALL_BIN := by
  have hok : ((mkB "x86_64-b" "x86_64-b" "aarch64-t" false 2).build_pkg fxMk "/usr/bin" "glibc"
      ["all"] Target.TARGET [] "" fs0).isOk = true := by decide
  rcases hres : (mkB "x86_64-b" "x86_64-b" "aarch64-t" false 2).build_pkg fxMk "/usr/bin" "glibc"
      ["all"] Target.TARGET [] "" fs0 with msg | ⟨effs, fs2⟩
  · rw [hres] at hok
    exact absurd hok (by simp [Except.isOk, Except.toBool])
  · exact ⟨effs, fs2, rfl, fun e he x hx =>
      C5_path_env (mkB "x86_64-b" "x86_64-b" "aarch64-t" false 2) fxMk "/usr/bin" "glibc"
        ["all"] Target.TARGET [] "" fs0 _ _ _ effs fs2 rfl hres e he x hx⟩

/-- C3 amended: when the Canadian relation is reached the run ends (the
relations after it are never processed), and the Canadian pass consists
solely of gcc steps: every executed command runs in gcc's Canadian work
directory, which is namespaced by the (host, target) pair.  The
assembler/linker suite is NOT built in the Canadian pass (see
C3_counterexample). -/
theorem C3_canadian_gcc_only (b : Builder) (fx : List String → String → List String)
    (p : String) (fs : List String) (rest : List Target) :
    b.compileGo fx p (Target.CANADIAN :: rest) fs = b.do_canadian fx p fs ∧
    (∀ effs fs2, b.do_canadian fx p fs = .ok (effs, fs2) →
      ∀ e ∈ effs, ∀ x, e.cwdOf = some x →
        x = pkgWork "gcc" "" (b.host ++ "_" ++ b.target)) := by
  constructor
  · simp [Builder.compileGo]
  · intro effs fs2 h e he x hx
    unfold Builder.do_canadian at h
    dsimp only [] at h
    split at h
    · exact absurd h (by simp)
    · rename_i es1 f1 heq1
      split at h
      · exact absurd h (by simp)
      · rename_i es2 f2 heq2
        simp only [Except.ok.injEq, Prod.mk.injEq] at h
        obtain ⟨he0, -⟩ := h
        subst he0
        rcases List.mem_append.mp he with hm | hm
        · exact build_pkg_cwd b fx p "gcc" ["all"] Target.CANADIAN _ "" fs _ _ _
            es1 f1 rfl heq1 e hm x hx
        · exact build_pkg_cwd b fx p "gcc" ["install"] Target.CANADIAN _ "" f1 _ _ _
            es2 f2 rfl heq2 e hm x hx

/-- Counterexample to C3 as stated: in a concrete Canadian pass the trace
contains executed commands, yet every one of them runs in gcc's work
directory — no assembler/linker (binutils) package is built or installed
during the Canadian pass. -/
theorem C3_counterexample :
    (effsOf ((mkB "x86_64-b" "aarch64-h" "powerpc-t" false 2).do_canadian fxMk
        "/usr/bin" fs0)).filter Eff.isExec ≠ [] ∧
    ∀ e ∈ effsOf ((mkB "x86_64-b" "aarch64-h" "powerpc-t" false 2).do_canadian fxMk
        "/usr/bin" fs0),
      e.cwdOf = none ∨ e.cwdOf = some (pkgWork "gcc" "" "aarch64-h_powerpc-t") := by
  constructor
  · decide
  · decide

/-- Witness for the amended C3 at a concrete Canadian run. -/
theorem C3_canadian_gcc_only_witness :
    ∃ effs fs2,
      (mkB "x86_64-b" "aarch64-h" "powerpc-t" false 2).do_canadian fxMk "/usr/bin" fs0 =
        .ok (effs, fs2) ∧
      ∀ e ∈ effs, ∀ x, e.cwdOf = some x →
        x = pkgWork "gcc" "" ("aarch64-h" ++ "_" ++ "powerpc-t") := by
  have hok : ((mkB "x86_64-b" "aarch64-h" "powerpc-t" false 2).do_canadian fxMk
      "/usr/bin" fs0).isOk = true := by decide
  rcases hres : (mkB "x86_64-b" "aarch64-h" "powerpc-t" false 2).do_canadian fxMk
      "/usr/bin" fs0 with msg | ⟨effs, fs2⟩
  · rw [hres] at hok
    exact absurd hok (by simp [Except.isOk, Except.toBool])
  · exact ⟨effs, fs2, rfl, fun e he x hx =>
      (C3_canadian_gcc_only (mkB "x86_64-b" "aarch64-h" "powerpc-t" false 2) fxMk
        "/usr/bin" fs0 []).2 effs fs2 hres e he x hx⟩

/-- C6: when the work directory already contains a `Makefile`, `build_pkg`
does not run configure — the only executed command is the requested make
step — and the `Makefile` is still present afterwards, so a second
invocation also skips configure. -/
theorem C6_skip_configure (b : Builder) (fx : List String → String → List String)
    (p pkg : String) (verbs : List String) (system : Target) (extras : List String)
    (stage : String) (fs : List String) (triple wd : String) (ca : List String)
    (effs : List Eff) (fs2 : List String)
    (hfa : b.format_args stage pkg system (pkg == "glibc") = .ok (triple, wd, ca))
    (hmk : pathJoin wd "Makefile" ∈ fs)
    (hdry : b.dry_run = false)
    (hbp : b.build_pkg fx p pkg verbs system extras stage fs = .ok (effs, fs2)) :
    effs.filter Eff.isExec =
      [Eff.exec (b.make_cmd ++ verbs) (get_log_path stage pkg triple verbs) wd
        (child_path_env p pkg system)] ∧
    pathJoin wd "Makefile" ∈ fs2 := by
  rw [build_pkg_ok b fx p pkg verbs system extras stage fs triple wd ca hfa] at hbp
  have hmk1 := mkdirEffs_mono b.dry_run (pathJoin _LOG_DIR triple) wd
      (pathJoin wd "Makefile") fs hmk
  rw [configureEffs_skip b.dry_run fx pkg wd ca extras stage triple
      (child_path_env p pkg system) _ hmk1] at hbp
  simp only [Except.ok.injEq, Prod.mk.injEq] at hbp
  obtain ⟨he, hf⟩ := hbp
  subst he
  constructor
  · have hd1 : ((mkdirEffs b.dry_run (pathJoin _LOG_DIR triple) wd fs).1.filter
        Eff.isExec) = [] := by
      rw [List.filter_eq_nil_iff]
      intro a ha
      rcases mkdirEffs_shape _ _ _ _ a ha with rfl | rfl <;> simp [Eff.isExec]
    rw [hdry]
    simp only [List.filter_append]
    rw [hdry] at hd1
    rw [hd1]
    simp [run_command_effs, Eff.isExec, List.filter]
  · rw [← hf]
    exact List.mem_append_right _ hmk1

/-- Witness for C6: a concrete invocation on a work directory whose
`Makefile` already exists runs only the make step. -/
theorem C6_skip_configure_witness :
    ∃ effs fs2,
      (mkB "x86_64-b" "x86_64-b" "aarch64-t" false 2).build_pkg fxMk "/usr/bin" "binutils"
        ["install"] Target.TARGET [] ""
        (pathJoin (pkgWork "binutils" "" "aarch64-t") "Makefile" :: fs0) = .ok (effs, fs2) ∧
      effs.filter Eff.isExec =
        [Eff.exec (["make", "-j" ++ toString 2] ++ ["install"])
          (get_log_path "" "binutils" "aarch64-t" ["install"]) (pkgWork "binutils" "" "aarch64-t")
          (child_path_env "/usr/bin" "binutils" Target.TARGET)] ∧
      pathJoin (pkgWork "binutils" "" "aarch64-t") "Makefile" ∈ fs2 := by
  have hok : ((mkB "x86_64-b" "x86_64-b" "aarch64-t" false 2).build_pkg fxMk "/usr/bin"
      "binutils" ["install"] Target.TARGET [] ""
      (pathJoin (pkgWork "binutils" "" "aarch64-t") "Makefile" :: fs0)).isOk = true := by decide
  rcases hres : (mkB "x86_64-b" "x86_64-b" "aarch64-t" false 2).build_pkg fxMk "/usr/bin"
      "binutils" ["install"] Target.TARGET [] ""
      (pathJoin (pkgWork "binutils" "" "aarch64-t") "Makefile" :: fs0) with msg | ⟨effs, fs2⟩
  · rw [hres] at hok
    exact absurd hok (by simp [Except.isOk, Except.toBool])
  · have hc := C6_skip_configure (mkB "x86_64-b" "x86_64-b" "aarch64-t" false 2) fxMk
      "/usr/bin" "binutils" ["install"] Target.TARGET [] ""
      (pathJoin (pkgWork "binutils" "" "aarch64-t") "Makefile" :: fs0)
      "aarch64-t" (pkgWork "binutils" "" "aarch64-t")
      (get_args "x86_64-b" "x86_64-b" "aarch64-t") effs fs2 rfl
      (List.mem_cons_self _ _) rfl hres
    exact ⟨effs, fs2, rfl, hc.1, hc.2⟩

/-- C7 amended: a dry run is pure — the filesystem state is unchanged (no
directory created, no log opened, no stub file written, no child process
executed) and every effect in the trace is a printed line, one per
configure/make step the traversal reaches, in traversal order.  The
original claim's stronger statement — that the printed lines correspond
one-to-one, in order, to the steps a live run executes — is false: a live
run in which configure generates the work directory's Makefile skips the
configure step on later invocations of the same work directory, while the
dry run (which changes nothing on disk) prints a configure line each time
(see C7_counterexample). -/
theorem C7_dry_run_pure (b : Builder) (fx : List String → String → List String)
    (p : String) (fs : List String) (hdry : b.dry_run = true) :
    ∃ effs, b.compile fx p fs = .ok (effs, fs) ∧ ∀ e ∈ effs, e.isPrint = true :=
  compileGo_dry b fx p hdry b.to_build (to_build_no_build b) fs

/-- Witness for the amended C7 at a concrete dry run. -/
theorem C7_dry_run_pure_witness :
    ∃ effs, (mkB "x86_64-b" "x86_64-b" "aarch64-t" true 2).compile fxMk "/usr/bin" fs0 =
      .ok (effs, fs0) ∧ ∀ e ∈ effs, e.isPrint = true :=
  C7_dry_run_pure (mkB "x86_64-b" "x86_64-b" "aarch64-t" true 2) fxMk "/usr/bin" fs0 rfl

/-- Counterexample to C7 as stated: from the same initial filesystem, with
configure generating the Makefile (the behaviour the orchestrator's own
idempotency check is designed around), the dry run prints 23 lines while
the live run executes only 16 commands — the dry run prints configure
lines for steps a live run would skip, so there is not exactly one line
per live step. -/
theorem C7_counterexample :
    printCount ((mkB "x86_64-b" "x86_64-b" "aarch64-t" true 2).compile fxMk "/usr/bin" fs0) = 23 ∧
    execCount ((mkB "x86_64-b" "x86_64-b" "aarch64-t" false 2).compile fxMk "/usr/bin" fs0) = 16 ∧
    (23 : Nat) ≠ 16 := by
  refine ⟨by decide, by decide, by decide⟩

end Cross
